import Mathlib

/-!
A verification development for the go-smarthealthcards repository.

Go strings are modeled as `List Char`; all strings the claims concern are
ASCII, where Go's byte indexing and rune iteration coincide.  External
standard-library collaborators (crypto/sha256, compress/flate, crypto/ecdsa's
randomized signing, time.Now, time.Parse, and the QR PNG rasterizer) are
modeled as explicit parameters; everything the repository itself computes is
embedded concretely from the source.
-/

namespace SmartHealthCards

/-- The Base64URL alphabet plus `.`: the character set of a compact JWS string. -/
def jwsAlphabet : List Char :=
  "ABCDEFGHIJKLMNOPQRSTUVWXYZabcdefghijklmnopqrstuvwxyz0123456789-_.".toList

/-- The ten decimal digit characters. -/
def digitChars : List Char := "0123456789".toList

/-- Go `fmt.Sprintf("%d", n)` for a natural number: its decimal digits. -/
def natDec (n : Nat) : List Char := Nat.toDigits 10 n

/-- Go `fmt.Sprintf("%02d", v)` for an integer: the decimal rendering (with a
leading `-` for negative values), left-padded with `0` to width two. -/
def fmt02d (v : Int) : List Char :=
  let s := if v < 0 then '-' :: Nat.toDigits 10 v.natAbs else Nat.toDigits 10 v.natAbs
  List.replicate (2 - s.length) '0' ++ s

/-- The literal `shc:/` marker opening every QR payload. -/
def shcLit : List Char := "shc:/".toList

/-- The numeric body built by the loop in `shcContent` (qrcode.go): each
character's code point minus 45, rendered `%02d`, concatenated. -/
def numericBody (content : List Char) : List Char :=
  (content.map (fun r => fmt02d ((r.toNat : Int) - 45))).flatten

/-- `shcContent` from qrcode.go (chunking variant): the QR payload string for
chunk `c` of `n`.  The external QR PNG rasterization is not modeled; the
payload string handed to the rasterizer is the value of interest. -/
def shcContent (c n : Nat) (content : List Char) : List Char :=
  shcLit ++ (if n ≠ 1 then natDec c ++ ['/'] ++ natDec n ++ ['/'] else [])
    ++ numericBody content

/-- `maxSingleChunkSize` from qrcode.go. -/
def maxSingleChunkSize : Nat := 1195

/-- `maxMultipleChunkSize` from qrcode.go. -/
def maxMultipleChunkSize : Nat := 1191

/-- The chunk-count computation opening `Encode` (qrcode.go, chunking variant). -/
def numChunks (len : Nat) : Nat :=
  if len > maxSingleChunkSize then
    if len % maxMultipleChunkSize = 0 then len / maxMultipleChunkSize
    else len / maxMultipleChunkSize + 1
  else 1

/-- The Go slice `content[(i-1)*len(content)/numChunks : i*len(content)/numChunks]`
for the 1-based chunk index `i`; here `i` is 0-based. -/
def chunkSlice (content : List Char) (n i : Nat) : List Char :=
  (content.drop (i * content.length / n)).take
    ((i + 1) * content.length / n - i * content.length / n)

/-- `Encode` from qrcode.go (chunking variant): the ordered QR payloads. -/
def Encode (content : List Char) : List (List Char) :=
  let n := numChunks content.length
  (List.range n).map (fun i => shcContent (i + 1) n (chunkSlice content n i))

/-- Verifier-side decoding of the digit pairs (claim C1's wording): each
two-decimal-digit pair maps back to the character with code point
pair value + 45. -/
def decodePairs : List Char → List Char
  | d1 :: d0 :: rest =>
      Char.ofNat ((d1.toNat - 48) * 10 + (d0.toNat - 48) + 45) :: decodePairs rest
  | _ => []

/-- Drop characters up to and including the first `/`. -/
def dropSlash : List Char → List Char
  | [] => []
  | c :: rest => if c = '/' then rest else dropSlash rest

/-- Strip the optional `<index>/<count>/` marker: when a slash is present
(the digit body itself never contains one), drop through the second slash. -/
def stripIdx (s : List Char) : List Char :=
  if '/' ∈ s then dropSlash (dropSlash s) else s

/-- Claim C1's decoding of one QR payload: strip the five characters of
`shc:/`, strip the optional index/count marker, decode the digit pairs. -/
def decodeChunk (p : List Char) : List Char := decodePairs (stripIdx (p.drop 5))

/-- The spec's two-decimal-digit zero-padded rendering of a pair value. -/
def specPair (v : Nat) : List Char := [Nat.digitChar (v / 10), Nat.digitChar (v % 10)]

/-- Everything needed of the digit-pair encoding of one JWS character. -/
def charPairProp (c : Char) : Prop :=
  fmt02d ((c.toNat : Int) - 45) = specPair (c.toNat - 45) ∧
  decodePairs (specPair (c.toNat - 45)) = [c] ∧
  ∀ d ∈ specPair (c.toNat - 45), d ∈ digitChars

instance (c : Char) : Decidable (charPairProp c) := by
  unfold charPairProp; infer_instance

lemma allCharPair : ∀ c ∈ jwsAlphabet, charPairProp c := by decide

lemma digit_ne_slash : ∀ d ∈ digitChars, d ≠ '/' := by decide

lemma decode_spec_cons (c : Char) (hc : c ∈ jwsAlphabet) (ys : List Char) :
    decodePairs (specPair (c.toNat - 45) ++ ys) = c :: decodePairs ys := by
  have h := (allCharPair c hc).2.1
  simp only [specPair, decodePairs, List.cons_append, List.nil_append] at h ⊢
  rw [List.cons.injEq] at h
  simp [h.1]

lemma numericBody_eq_spec (body : List Char) (hb : ∀ x ∈ body, x ∈ jwsAlphabet) :
    numericBody body = (body.map (fun x => specPair (x.toNat - 45))).flatten := by
  unfold numericBody
  congr 1
  exact List.map_congr_left fun x hx => (allCharPair x (hb x hx)).1

lemma decodePairs_specBody (body : List Char) (hb : ∀ x ∈ body, x ∈ jwsAlphabet) :
    decodePairs ((body.map (fun x => specPair (x.toNat - 45))).flatten) = body := by
  induction body with
  | nil => rfl
  | cons a l ih =>
      rw [List.map_cons, List.flatten_cons,
        decode_spec_cons a (hb a (List.mem_cons_self a l)) _,
        ih (fun x hx => hb x (List.mem_cons_of_mem a hx))]

lemma slash_not_mem_specBody (body : List Char) (hb : ∀ x ∈ body, x ∈ jwsAlphabet) :
    '/' ∉ (body.map (fun x => specPair (x.toNat - 45))).flatten := by
  intro hmem
  rw [List.mem_flatten] at hmem
  obtain ⟨l, hl, hsl⟩ := hmem
  rw [List.mem_map] at hl
  obtain ⟨x, hx, rfl⟩ := hl
  exact digit_ne_slash '/' ((allCharPair x (hb x hx)).2.2 '/' hsl) rfl

lemma toDigitsCore_mem (fuel : Nat) :
    ∀ (n : Nat) (ds : List Char), (∀ c ∈ ds, c ∈ digitChars) →
      ∀ c ∈ Nat.toDigitsCore 10 fuel n ds, c ∈ digitChars := by
  induction fuel with
  | zero => intro n ds hds c hc; exact hds c hc
  | succ fuel ih =>
      intro n ds hds c hc
      have hdig : ∀ m, m < 10 → Nat.digitChar m ∈ digitChars := by decide
      have hd : Nat.digitChar (n % 10) ∈ digitChars :=
        hdig (n % 10) (Nat.mod_lt _ (by norm_num))
      simp only [Nat.toDigitsCore] at hc
      have hcons : ∀ x ∈ Nat.digitChar (n % 10) :: ds, x ∈ digitChars := by
        intro x hx
        rcases List.mem_cons.mp hx with rfl | hx
        · exact hd
        · exact hds x hx
      split at hc
      · exact hcons c hc
      · exact ih (n / 10) _ hcons c hc

lemma natDec_mem (k : Nat) : ∀ c ∈ natDec k, c ∈ digitChars := by
  unfold natDec Nat.toDigits
  exact toDigitsCore_mem (k + 1) k [] (by simp)

lemma slash_not_mem_natDec (k : Nat) : '/' ∉ natDec k := fun h =>
  digit_ne_slash '/' (natDec_mem k '/' h) rfl

lemma dropSlash_append (xs ys : List Char) (h : '/' ∉ xs) :
    dropSlash (xs ++ '/' :: ys) = ys := by
  induction xs with
  | nil => simp [dropSlash]
  | cons a l ih =>
      have ha : ¬a = '/' := fun hEq => h (hEq ▸ List.mem_cons_self a l)
      rw [List.cons_append, dropSlash, if_neg ha]
      exact ih fun hm => h (List.mem_cons_of_mem a hm)

/-- Decoding one payload built by `shcContent` recovers its chunk body. -/
lemma decodeChunk_shcContent (c n : Nat) (body : List Char)
    (hb : ∀ x ∈ body, x ∈ jwsAlphabet) :
    decodeChunk (shcContent c n body) = body := by
  have hlit : shcLit.length = 5 := by decide
  have hbody := numericBody_eq_spec body hb
  have hnos := slash_not_mem_specBody body hb
  unfold decodeChunk shcContent
  rw [hbody, List.append_assoc, ← hlit, List.drop_left]
  by_cases hn : n = 1
  · rw [if_neg (by simp [hn]), List.nil_append, stripIdx, if_neg hnos]
    exact decodePairs_specBody body hb
  · rw [if_pos hn]
    have hshape :
        (natDec c ++ ['/'] ++ natDec n ++ ['/']) ++
            (body.map (fun x => specPair (x.toNat - 45))).flatten
          = natDec c ++ '/' :: (natDec n ++ '/' ::
              (body.map (fun x => specPair (x.toNat - 45))).flatten) := by
      simp
    rw [hshape, stripIdx, if_pos (by simp),
      dropSlash_append _ _ (slash_not_mem_natDec c),
      dropSlash_append _ _ (slash_not_mem_natDec n)]
    exact decodePairs_specBody body hb

lemma chunkSlices_flatten_aux (content : List Char) (n : Nat) :
    ∀ k : Nat, ((List.range k).map (chunkSlice content n)).flatten
      = content.take (k * content.length / n) := by
  intro k
  induction k with
  | zero => simp
  | succ k ih =>
      rw [List.range_succ, List.map_append, List.flatten_append, ih]
      have hle : k * content.length / n ≤ (k + 1) * content.length / n :=
        Nat.div_le_div_right (Nat.mul_le_mul_right _ (Nat.le_succ k))
      simp only [List.map_cons, List.map_nil, List.flatten_cons, List.flatten_nil,
        List.append_nil, chunkSlice]
      have hsplit : (k + 1) * content.length / n
          = k * content.length / n
            + ((k + 1) * content.length / n - k * content.length / n) := by omega
      conv_rhs => rw [hsplit, List.take_add]

lemma numChunks_pos (len : Nat) : 0 < numChunks len := by
  unfold numChunks maxSingleChunkSize maxMultipleChunkSize
  split
  · split <;> omega
  · omega

lemma chunkSlices_flatten (content : List Char) (n : Nat) (hn : 0 < n) :
    ((List.range n).map (chunkSlice content n)).flatten = content := by
  rw [chunkSlices_flatten_aux content n n, Nat.mul_div_cancel_left _ hn,
    List.take_length]

lemma chunkSlice_subset (content : List Char) (n i : Nat) :
    ∀ x ∈ chunkSlice content n i, x ∈ content := fun _ hx =>
  List.mem_of_mem_drop (List.mem_of_mem_take hx)

/-- C1.  For every JWS string over the Base64URL-plus-`.` alphabet, stripping
each payload of the chunking `Encode` of its `shc:/` marker and optional
index/count marker, decoding the two-decimal-digit pairs back to characters
with code point pair value + 45, and concatenating the decoded bodies in
ascending chunk-index order yields exactly the original input string. -/
theorem encode_decode_roundtrip (content : List Char)
    (halpha : ∀ c ∈ content, c ∈ jwsAlphabet) :
    ((Encode content).map decodeChunk).flatten = content := by
  simp only [Encode, List.map_map]
  have hmap : (List.range (numChunks content.length)).map
      (decodeChunk ∘ fun i => shcContent (i + 1) (numChunks content.length)
        (chunkSlice content (numChunks content.length) i))
      = (List.range (numChunks content.length)).map
          (chunkSlice content (numChunks content.length)) :=
    List.map_congr_left fun i _ =>
      decodeChunk_shcContent _ _ _
        (fun x hx => halpha x (chunkSlice_subset content _ i x hx))
  rw [hmap, chunkSlices_flatten _ _ (numChunks_pos _)]

theorem encode_decode_roundtrip_witness :
    (∀ c ∈ "A0-_.z".toList, c ∈ jwsAlphabet) ∧
    ((Encode "A0-_.z".toList).map decodeChunk).flatten = "A0-_.z".toList :=
  ⟨by decide, encode_decode_roundtrip _ (by decide)⟩

lemma numChunks_of_le (len : Nat) (h : len ≤ 1195) : numChunks len = 1 := by
  unfold numChunks maxSingleChunkSize
  rw [if_neg (by omega)]

lemma numChunks_of_gt (len : Nat) (h : 1195 < len) :
    numChunks len = (len + 1190) / 1191 := by
  unfold numChunks maxSingleChunkSize maxMultipleChunkSize
  rw [if_pos (by omega)]
  split <;> omega

lemma len_le_mul_numChunks (len : Nat) (h : 1195 < len) :
    len ≤ 1191 * numChunks len := by
  rw [numChunks_of_gt len h]
  omega

lemma split_point_gap_le (L n i : Nat) (hn : 0 < n) (hL : L ≤ 1191 * n) :
    (i + 1) * L / n - i * L / n ≤ 1191 := by
  rcases Nat.lt_or_ge L (1191 * n) with hlt | hge
  · have h1 : (i + 1) * L / n = (i * L + L) / n := by
      rw [Nat.add_mul, Nat.one_mul]
    have h2 : (i * L + L) / n ≤ i * L / n + L / n + 1 := by
      rw [Nat.add_div hn]; split <;> omega
    have h3 : L / n ≤ 1190 := by
      by_contra hc
      push_neg at hc
      have hmul : 1191 * n ≤ L / n * n :=
        Nat.mul_le_mul_right n (by omega)
      have hle : L / n * n ≤ L := Nat.div_mul_le_self L n
      omega
    rw [h1]
    omega
  · have hEq : L = 1191 * n := le_antisymm hL hge
    subst hEq
    have hi : ∀ j : Nat, j * (1191 * n) / n = j * 1191 := by
      intro j
      rw [show j * (1191 * n) = j * 1191 * n by ring, Nat.mul_div_cancel _ hn]
    rw [hi, hi]
    omega

/-- C2.  Inputs of length at most 1195 yield exactly one chunk carrying the
whole string with no index/count marker; longer inputs yield
`ceil(length / 1191)` chunks (length 1196 yields two), the chunk bodies are
the contiguous slices between the split points `floor(i*length/numChunks)`,
they concatenate back to the input in order, and each has length at most
1191. -/
theorem encode_chunk_counts (content : List Char) :
    (content.length ≤ 1195 → Encode content = [shcLit ++ numericBody content]) ∧
    (1195 < content.length →
      (Encode content).length = (content.length + 1190) / 1191 ∧
      ((List.range (numChunks content.length)).map
          (chunkSlice content (numChunks content.length))).flatten = content ∧
      (∀ i, (chunkSlice content (numChunks content.length) i).length ≤ 1191)) ∧
    (content.length = 1196 → (Encode content).length = 2) := by
  refine ⟨fun h => ?_, fun h => ⟨?_, ?_, fun i => ?_⟩, fun h => ?_⟩
  · simp only [Encode, numChunks_of_le _ h]
    have hr : List.range 1 = [0] := rfl
    rw [hr, List.map_cons, List.map_nil]
    have hslice : chunkSlice content 1 0 = content := by
      simp [chunkSlice]
    rw [hslice]
    simp [shcContent]
  · simp only [Encode, List.length_map, List.length_range]
    exact numChunks_of_gt _ h
  · exact chunkSlices_flatten _ _ (numChunks_pos _)
  · have hgap := split_point_gap_le content.length (numChunks content.length) i
      (numChunks_pos _) (len_le_mul_numChunks _ h)
    calc (chunkSlice content (numChunks content.length) i).length
        ≤ (i + 1) * content.length / numChunks content.length
            - i * content.length / numChunks content.length := by
          simp only [chunkSlice, List.length_take]
          exact min_le_left _ _
      _ ≤ 1191 := hgap
  · simp only [Encode, List.length_map, List.length_range, h]
    decide

theorem encode_chunk_counts_witness :
    (("ab".toList.length ≤ 1195 ∧ Encode "ab".toList = [shcLit ++ numericBody "ab".toList]) ∧
     (1195 < (List.replicate 1196 'a').length ∧
       (Encode (List.replicate 1196 'a')).length
           = ((List.replicate 1196 'a').length + 1190) / 1191 ∧
       ((List.range (numChunks (List.replicate 1196 'a').length)).map
           (chunkSlice (List.replicate 1196 'a')
             (numChunks (List.replicate 1196 'a').length))).flatten
           = List.replicate 1196 'a' ∧
       (∀ i, (chunkSlice (List.replicate 1196 'a')
           (numChunks (List.replicate 1196 'a').length) i).length ≤ 1191)) ∧
     ((List.replicate 1196 'a').length = 1196 ∧
       (Encode (List.replicate 1196 'a')).length = 2)) :=
  ⟨⟨by decide, (encode_chunk_counts "ab".toList).1 (by decide)⟩,
   ⟨by rw [List.length_replicate]; norm_num,
    (encode_chunk_counts _).2.1 (by rw [List.length_replicate]; norm_num)⟩,
   ⟨by rw [List.length_replicate],
    (encode_chunk_counts _).2.2 (by rw [List.length_replicate])⟩⟩

lemma allCharVal : ∀ x ∈ jwsAlphabet,
    ((Nat.digitChar ((x.toNat - 45) / 10)).toNat - 48) * 10
      + ((Nat.digitChar ((x.toNat - 45) % 10)).toNat - 48) = x.toNat - 45 := by
  decide

lemma allCharDigits : ∀ x ∈ jwsAlphabet,
    Nat.digitChar ((x.toNat - 45) / 10) ∈ digitChars ∧
      Nat.digitChar ((x.toNat - 45) % 10) ∈ digitChars := by
  decide

/-- C3.  The QR payload for chunk `i` of `n` over alphabet characters is the
literal `shc:/`, then (only when `n > 1`) the decimal index, a slash, the
decimal count, a slash, then one two-decimal-digit zero-padded group per
character with value code point minus 45, concatenated with no separator. -/
theorem shc_payload_format (c n : Nat) (hn : 1 ≤ n) (body : List Char)
    (hb : ∀ x ∈ body, x ∈ jwsAlphabet) :
    shcContent c n body
      = shcLit ++ (if 1 < n then natDec c ++ ['/'] ++ natDec n ++ ['/'] else [])
        ++ (body.map (fun x => specPair (x.toNat - 45))).flatten ∧
    ∀ x ∈ body, ∃ d1 d0, specPair (x.toNat - 45) = [d1, d0] ∧
      d1 ∈ digitChars ∧ d0 ∈ digitChars ∧
      (d1.toNat - 48) * 10 + (d0.toNat - 48) = x.toNat - 45 := by
  constructor
  · unfold shcContent
    rw [numericBody_eq_spec body hb]
    by_cases h1 : n = 1
    · rw [if_neg (by simp [h1]), if_neg (by omega)]
    · rw [if_pos h1, if_pos (by omega)]
  · intro x hx
    exact ⟨_, _, rfl, (allCharDigits x (hb x hx)).1, (allCharDigits x (hb x hx)).2,
      allCharVal x (hb x hx)⟩

theorem shc_payload_format_witness :
    (1 ≤ 3 ∧ (∀ x ∈ "Az".toList, x ∈ jwsAlphabet)) ∧
    (shcContent 2 3 "Az".toList
      = shcLit ++ (if 1 < 3 then natDec 2 ++ ['/'] ++ natDec 3 ++ ['/'] else [])
        ++ ("Az".toList.map (fun x => specPair (x.toNat - 45))).flatten ∧
    ∀ x ∈ "Az".toList, ∃ d1 d0, specPair (x.toNat - 45) = [d1, d0] ∧
      d1 ∈ digitChars ∧ d0 ∈ digitChars ∧
      (d1.toNat - 48) * 10 + (d0.toNat - 48) = x.toNat - 45) :=
  ⟨⟨by decide, by decide⟩, shc_payload_format 2 3 (by decide) _ (by decide)⟩

/-! JWS production (jws/jws.go).  crypto/sha256, compress/flate (at
`flate.BestCompression`), and crypto/ecdsa's randomized `Sign` are external
standard-library collaborators; they appear as explicit function parameters
`sha256`, `deflate`, and `signRS`.  Byte strings are `List Nat`. -/

/-- The 64 characters of the unpadded Base64URL encoding
(encoding/base64 RawURLEncoding). -/
def b64Alphabet : List Char :=
  "ABCDEFGHIJKLMNOPQRSTUVWXYZabcdefghijklmnopqrstuvwxyz0123456789-_".toList

/-- The Base64URL character for a 6-bit value. -/
def b64Char (n : Nat) : Char := b64Alphabet.getD n 'A'

/-- Unpadded Base64URL (encoding/base64 RawURLEncoding.EncodeToString):
three bytes become four characters; a trailing byte becomes two characters
and two trailing bytes become three, with no padding. -/
def b64urlEncode : List Nat → List Char
  | b1 :: b2 :: b3 :: rest =>
      b64Char (b1 / 4) :: b64Char (b1 % 4 * 16 + b2 / 16) ::
        b64Char (b2 % 16 * 4 + b3 / 64) :: b64Char (b3 % 64) :: b64urlEncode rest
  | [b1, b2] => [b64Char (b1 / 4), b64Char (b1 % 4 * 16 + b2 / 16), b64Char (b2 % 16 * 4)]
  | [b1] => [b64Char (b1 / 4), b64Char (b1 % 4 * 16)]
  | [] => []

/-- `big.Int.FillBytes(make([]byte, w))`: the value as `w` big-endian bytes,
zero-padded on the left. -/
def fillBytes (v w : Nat) : List Nat :=
  (List.range w).map (fun i => v / 256 ^ (w - 1 - i) % 256)

/-- The bytes of an ASCII string (Go `[]byte(s)`). -/
def utf8 (s : List Char) : List Nat := s.map Char.toNat

/-- `algorithm` constant from jws.go. -/
def algorithmName : String := "ES256"

/-- `curve` constant from jws.go. -/
def curveName : String := "P-256"

/-- `keyType` constant from jws.go. -/
def keyTypeName : String := "EC"

/-- `xtos` from jws.go: the public X coordinate as 32 big-endian bytes,
Base64URL without padding. -/
def xtos (X : Nat) : List Char := b64urlEncode (fillBytes X 32)

/-- `ytos` from jws.go. -/
def ytos (Y : Nat) : List Char := b64urlEncode (fillBytes Y 32)

/-- The `fmt.Sprintf` JWK template in `kid` (jws.go), with the `curve` and
`keyType` constants spliced in. -/
def jwkString (X Y : Nat) : List Char :=
  ("\x7b\"crv\":\"").toList ++ curveName.toList ++ ("\",\"kty\":\"").toList
    ++ keyTypeName.toList ++ ("\",\"x\":\"").toList ++ xtos X
    ++ ("\",\"y\":\"").toList ++ ytos Y ++ ("\"\x7d").toList

/-- `kid` from jws.go: Base64URL of the SHA-256 digest of the JWK string.
The digest function is the abstract parameter `sha256`. -/
def kid (sha256 : List Nat → List Nat) (X Y : Nat) : List Char :=
  b64urlEncode (sha256 (utf8 (jwkString X Y)))

/-- encoding/json marshaling of the `header` struct in jws.go: field order
`alg`, `zip`, `kid` as declared; the values need no JSON escaping. -/
def headerJSON (kidStr : List Char) : List Char :=
  ("\x7b\"alg\":\"").toList ++ algorithmName.toList
    ++ ("\",\"zip\":\"DEF\",\"kid\":\"").toList ++ kidStr ++ ("\"\x7d").toList

/-- `SignAndSerialize` from jws.go.  `deflate` stands for the
compress/flate writer at `flate.BestCompression`; `signRS` stands for
`ecdsa.Sign` with its random nonce source, taking the SHA-256 digest and
returning the signature components `(r, s)`. -/
def SignAndSerialize (sha256 deflate : List Nat → List Nat)
    (signRS : List Nat → Nat × Nat) (payload : List Nat) (X Y : Nat) : List Char :=
  let hB64 := b64urlEncode (utf8 (headerJSON (kid sha256 X Y)))
  let pB64 := b64urlEncode (deflate payload)
  let signingInput := utf8 (hB64 ++ ['.'] ++ pB64)
  let rs := signRS (sha256 signingInput)
  let sigB64 := b64urlEncode (fillBytes rs.1 32 ++ fillBytes rs.2 32)
  hB64 ++ ['.'] ++ pB64 ++ ['.'] ++ sigB64

lemma b64Char_ne_dot (n : Nat) : b64Char n ≠ '.' := by
  unfold b64Char
  rcases Nat.lt_or_ge n 64 with h | h
  · revert h
    revert n
    decide
  · rw [List.getD_eq_default _ _ (by rw [show b64Alphabet.length = 64 from by decide]; omega)]
    decide

lemma b64_no_dot : ∀ l : List Nat, '.' ∉ b64urlEncode l
  | [] => by simp [b64urlEncode]
  | [b1] => by
      simp only [b64urlEncode, List.mem_cons, List.not_mem_nil, or_false]
      push_neg
      exact ⟨Ne.symm (b64Char_ne_dot _), Ne.symm (b64Char_ne_dot _)⟩
  | [b1, b2] => by
      simp only [b64urlEncode, List.mem_cons, List.not_mem_nil, or_false]
      push_neg
      exact ⟨Ne.symm (b64Char_ne_dot _), Ne.symm (b64Char_ne_dot _),
        Ne.symm (b64Char_ne_dot _)⟩
  | b1 :: b2 :: b3 :: rest => by
      simp only [b64urlEncode, List.mem_cons]
      push_neg
      exact ⟨Ne.symm (b64Char_ne_dot _), Ne.symm (b64Char_ne_dot _),
        Ne.symm (b64Char_ne_dot _), Ne.symm (b64Char_ne_dot _), b64_no_dot rest⟩

lemma b64urlEncode_eq_nil_iff : ∀ l : List Nat, b64urlEncode l = [] ↔ l = []
  | [] => by simp [b64urlEncode]
  | [b1] => by simp [b64urlEncode]
  | [b1, b2] => by simp [b64urlEncode]
  | b1 :: b2 :: b3 :: rest => by simp [b64urlEncode]

lemma count_dot_eq_zero {l : List Char} (h : '.' ∉ l) : l.count '.' = 0 :=
  List.count_eq_zero.mpr h

/-- C4.  A successful `SignAndSerialize` is `H ++ "." ++ P ++ "." ++ S` with
exactly two dot separators and three non-empty segments, where `H` encodes
the JSON header carrying the derived kid, `P` encodes the DEFLATE-compressed
payload, and `S` encodes the 64 bytes `r ‖ s` of the signature over the
SHA-256 digest of the ASCII bytes of `H ++ "." ++ P`, each component 32
big-endian bytes zero-padded on the left. -/
theorem signAndSerialize_shape (sha256 deflate : List Nat → List Nat)
    (signRS : List Nat → Nat × Nat) (payload : List Nat) (X Y : Nat)
    (hdef : deflate payload ≠ []) :
    ∃ H P S : List Char,
      SignAndSerialize sha256 deflate signRS payload X Y
          = H ++ ['.'] ++ P ++ ['.'] ++ S ∧
      H = b64urlEncode (utf8 (headerJSON (kid sha256 X Y))) ∧
      P = b64urlEncode (deflate payload) ∧
      S = b64urlEncode
            (fillBytes (signRS (sha256 (utf8 (H ++ ['.'] ++ P)))).1 32
              ++ fillBytes (signRS (sha256 (utf8 (H ++ ['.'] ++ P)))).2 32) ∧
      H ≠ [] ∧ P ≠ [] ∧ S ≠ [] ∧ '.' ∉ H ∧ '.' ∉ P ∧ '.' ∉ S ∧
      (SignAndSerialize sha256 deflate signRS payload X Y).count '.' = 2 := by
  refine ⟨_, _, _, rfl, rfl, rfl, rfl, ?_, ?_, ?_, b64_no_dot _, b64_no_dot _,
    b64_no_dot _, ?_⟩
  · rw [ne_eq, b64urlEncode_eq_nil_iff]
    simp only [utf8, ne_eq, List.map_eq_nil_iff]
    intro h
    rw [headerJSON, List.append_eq_nil, List.append_eq_nil, List.append_eq_nil,
      List.append_eq_nil] at h
    exact absurd h.1.1.1.1 (by decide)
  · rw [ne_eq, b64urlEncode_eq_nil_iff]
    exact hdef
  · rw [ne_eq, b64urlEncode_eq_nil_iff]
    intro h
    rw [List.append_eq_nil] at h
    have : (fillBytes (signRS (sha256 (utf8 (b64urlEncode (utf8 (headerJSON
        (kid sha256 X Y))) ++ ['.'] ++ b64urlEncode (deflate payload))))).1
        32).length = 32 := by
      simp [fillBytes]
    rw [h.1] at this
    simp at this
  · unfold SignAndSerialize
    simp only [List.count_append]
    rw [count_dot_eq_zero (b64_no_dot _), count_dot_eq_zero (b64_no_dot _),
      count_dot_eq_zero (b64_no_dot _)]
    decide

theorem signAndSerialize_shape_witness :
    ((fun _ : List Nat => [(3 : Nat)]) [] ≠ []) ∧
    (∃ H P S : List Char,
      SignAndSerialize (fun _ => List.replicate 32 0) (fun _ => [3])
          (fun _ => (1, 1)) [] 0 0
          = H ++ ['.'] ++ P ++ ['.'] ++ S ∧
      H = b64urlEncode (utf8 (headerJSON (kid (fun _ => List.replicate 32 0) 0 0))) ∧
      P = b64urlEncode ((fun _ : List Nat => [(3 : Nat)]) []) ∧
      S = b64urlEncode
            (fillBytes ((fun _ : List Nat => ((1 : Nat), (1 : Nat)))
                ((fun _ : List Nat => List.replicate 32 0) (utf8 (H ++ ['.'] ++ P)))).1 32
              ++ fillBytes ((fun _ : List Nat => ((1 : Nat), (1 : Nat)))
                ((fun _ : List Nat => List.replicate 32 0) (utf8 (H ++ ['.'] ++ P)))).2 32) ∧
      H ≠ [] ∧ P ≠ [] ∧ S ≠ [] ∧ '.' ∉ H ∧ '.' ∉ P ∧ '.' ∉ S ∧
      (SignAndSerialize (fun _ => List.replicate 32 0) (fun _ => [3])
          (fun _ => (1, 1)) [] 0 0).count '.' = 2) :=
  ⟨by decide,
   signAndSerialize_shape (fun _ => List.replicate 32 0) (fun _ => [3])
     (fun _ => (1, 1)) [] 0 0 (by decide)⟩

/-- The `jwk` struct from jws.go (declared field order `kty`, `kid`, `use`,
`alg`, `crv`, `x`, `y`). -/
structure JWK where
  keyType : String
  keyID : List Char
  use : String
  algorithm : String
  curve : String
  x : List Char
  y : List Char

/-- encoding/json marshaling of the `jwks` struct in jws.go holding one
`jwk`: fields in declared order; the values need no JSON escaping. -/
def renderJWKS (k : JWK) : List Char :=
  ("\x7b\"keys\":[\x7b\"kty\":\"").toList ++ k.keyType.toList
    ++ ("\",\"kid\":\"").toList ++ k.keyID
    ++ ("\",\"use\":\"").toList ++ k.use.toList
    ++ ("\",\"alg\":\"").toList ++ k.algorithm.toList
    ++ ("\",\"crv\":\"").toList ++ k.curve.toList
    ++ ("\",\"x\":\"").toList ++ k.x
    ++ ("\",\"y\":\"").toList ++ k.y ++ ("\"\x7d]\x7d").toList

/-- `JWKSJSON` from jws.go: the JWKS document for the public key. -/
def JWKSJSON (sha256 : List Nat → List Nat) (X Y : Nat) : List Char :=
  renderJWKS { keyType := keyTypeName, keyID := kid sha256 X Y, use := "sig",
               algorithm := algorithmName, curve := curveName,
               x := xtos X, y := ytos Y }

/-- Modelled from the spec (§4.3 wording of claim C5): the kid as
Base64URL(SHA-256(UTF-8 bytes of the exact JSON string
`\x7b"crv":"P-256","kty":"EC","x":"<X>","y":"<Y>"\x7d`)) with the
coordinates as 32-byte big-endian values Base64URL-encoded without padding. -/
def specKid (sha256 : List Nat → List Nat) (X Y : Nat) : List Char :=
  b64urlEncode (sha256 (utf8 (
    ("\x7b\"crv\":\"P-256\",\"kty\":\"EC\",\"x\":\"").toList
      ++ b64urlEncode (fillBytes X 32) ++ ("\",\"y\":\"").toList
      ++ b64urlEncode (fillBytes Y 32) ++ ("\"\x7d").toList)))

/-- The JWKS document exactly as claim C5 words it. -/
def specJWKSDoc (kidStr xStr yStr : List Char) : List Char :=
  ("\x7b\"keys\":[\x7b\"kty\":\"EC\",\"kid\":\"").toList ++ kidStr
    ++ ("\",\"use\":\"sig\",\"alg\":\"ES256\",\"crv\":\"P-256\",\"x\":\"").toList ++ xStr
    ++ ("\",\"y\":\"").toList ++ yStr ++ ("\"\x7d]\x7d").toList

/-- C5.  The derived kid is exactly the Base64URL of the SHA-256 digest of
the spec's JWK JSON string; it is a function of the public coordinates
alone (two calls with the same public key yield the identical string); and
`JWKSJSON` produces exactly the claimed JWKS document carrying that same
kid, so the kid in the JWS header and in the JWKS document coincide. -/
theorem kid_jwks_consistency (sha256 : List Nat → List Nat) (X Y : Nat) :
    kid sha256 X Y = specKid sha256 X Y ∧
    (∀ X2 Y2, X2 = X → Y2 = Y → kid sha256 X2 Y2 = kid sha256 X Y) ∧
    JWKSJSON sha256 X Y = specJWKSDoc (kid sha256 X Y) (xtos X) (ytos Y) ∧
    headerJSON (kid sha256 X Y)
      = ("\x7b\"alg\":\"ES256\",\"zip\":\"DEF\",\"kid\":\"").toList
          ++ kid sha256 X Y ++ ("\"\x7d").toList := by
  refine ⟨?_, fun X2 Y2 hX hY => by rw [hX, hY], ?_, ?_⟩
  · simp [kid, specKid, jwkString, xtos, ytos, curveName, keyTypeName,
      List.append_assoc]
  · simp [JWKSJSON, renderJWKS, specJWKSDoc, keyTypeName, algorithmName,
      curveName, List.append_assoc]
  · simp [headerJSON, algorithmName, List.append_assoc]

lemma b64urlEncode_length : ∀ l : List Nat,
    (b64urlEncode l).length
      = 4 * (l.length / 3) + (if l.length % 3 = 0 then 0 else l.length % 3 + 1)
  | [] => by simp [b64urlEncode]
  | [b1] => by simp [b64urlEncode]
  | [b1, b2] => by simp [b64urlEncode]
  | b1 :: b2 :: b3 :: rest => by
      have ih := b64urlEncode_length rest
      simp only [b64urlEncode, List.length_cons]
      rw [ih]
      split <;> split <;> omega

/-- C10.  For every key whose digest has the 32 bytes SHA-256 produces, the
derived kid string has exactly 43 characters. -/
theorem kid_length_43 (sha256 : List Nat → List Nat) (X Y : Nat)
    (hsha : (sha256 (utf8 (jwkString X Y))).length = 32) :
    (kid sha256 X Y).length = 43 := by
  unfold kid
  rw [b64urlEncode_length, hsha]
  decide

theorem kid_length_43_witness :
    ((fun _ : List Nat => List.replicate 32 (0 : Nat)) (utf8 (jwkString 0 0))).length = 32 ∧
    (kid (fun _ => List.replicate 32 (0 : Nat)) 0 0).length = 43 :=
  ⟨by simp, kid_length_43 _ 0 0 (by simp)⟩

/-- `maxChunkSize` from qrcode/qrcode.go (non-chunking fallback variant). -/
def maxChunkSize : Nat := 1195

/-- `Encode` from qrcode/qrcode.go (non-chunking fallback variant): `none`
models returning `JWSTooLargeError`; `some` carries the `shc:/` payload
handed to the external QR PNG rasterizer. -/
def fallbackEncode (content : List Char) : Option (List Char) :=
  if content.length > maxChunkSize then none
  else some (shcLit ++ numericBody content)

/-- C9.  The non-chunking fallback `Encode` returns `JWSTooLargeError` (and
no QR output) exactly when the input exceeds 1195 characters; for shorter
inputs it produces the single `shc:/`-prefixed numeric payload with no
index/count marker. -/
theorem fallbackEncode_spec (content : List Char) :
    (fallbackEncode content = none ↔ 1195 < content.length) ∧
    (content.length ≤ 1195 →
      fallbackEncode content = some (shcLit ++ numericBody content)) := by
  unfold fallbackEncode maxChunkSize
  refine ⟨⟨fun he => ?_, fun hl => ?_⟩, fun h => ?_⟩
  · by_contra hc
    push_neg at hc
    rw [if_neg (by omega)] at he
    exact Option.noConfusion he
  · rw [if_pos (by omega)]
  · rw [if_neg (by omega)]

theorem fallbackEncode_spec_witness :
    ("a".toList.length ≤ 1195 ∧
      fallbackEncode "a".toList = some (shcLit ++ numericBody "a".toList)) ∧
    (fallbackEncode "a".toList = none ↔ 1195 < "a".toList.length) :=
  ⟨⟨by decide, (fallbackEncode_spec "a".toList).2 (by decide)⟩,
   (fallbackEncode_spec "a".toList).1⟩

/-! FHIR bundle construction (fhirbundle/fhirbundle.go) and the form
validation feeding it (webhandlers/webhandlers.go).  The time.Time values
of this code carry calendar dates; stdlib date parsing (`time.Parse
"2006-01-02"`) is the abstract parameter `pd`, returning `none` on error. -/

/-- A calendar date. -/
structure Date where
  year : Nat
  month : Nat
  day : Nat
deriving DecidableEq, Inhabited

/-- Go `t.Format("2006-01-02")`: zero-padded 4-digit year, 2-digit month,
2-digit day (modeling stdlib time formatting for in-range dates). -/
def formatYMD (d : Date) : String :=
  ⟨(List.replicate (4 - (natDec d.year).length) '0' ++ natDec d.year)
    ++ '-' :: (List.replicate (2 - (natDec d.month).length) '0' ++ natDec d.month)
    ++ '-' :: (List.replicate (2 - (natDec d.day).length) '0' ++ natDec d.day)⟩

/-- `type VaccineType string` from fhirbundle.go. -/
abbrev VaccineType := String

def Pfizer : VaccineType := "Pfizer"

def Moderna : VaccineType := "Moderna"

def JohnsonAndJohnson : VaccineType := "JohnsonAndJohnson"

def AstraZeneca : VaccineType := "AstraZeneca"

def Sinopharm : VaccineType := "Sinopharm"

def COVAXIN : VaccineType := "COVAXIN"

/-- The six supported vaccine types (the `switch` cases in `parseInput` and
in `cvxcode`). -/
def supportedVaccineTypes : List VaccineType :=
  [Pfizer, Moderna, JohnsonAndJohnson, AstraZeneca, Sinopharm, COVAXIN]

/-- `cvxcode` from fhirbundle.go; the `panic` on any other value is `none`. -/
def cvxcode (vt : VaccineType) : Option String :=
  if vt = Pfizer then some "208"
  else if vt = Moderna then some "207"
  else if vt = JohnsonAndJohnson then some "212"
  else if vt = AstraZeneca then some "210"
  else if vt = Sinopharm then some "510"
  else if vt = COVAXIN then some "502"
  else none

/-- `Name` from fhirbundle.go. -/
structure Name where
  family : String
  givens : List String
deriving DecidableEq, Inhabited

/-- `Patient` from fhirbundle.go. -/
structure Patient where
  name : Name
  birthDate : Date
deriving DecidableEq, Inhabited

/-- `Immunization` from fhirbundle.go. -/
structure Immunization where
  datePerformed : Date
  performer : String
  lotNumber : String
  vaccineType : VaccineType
deriving DecidableEq, Inhabited

/-- `FHIRBundle` from fhirbundle.go. -/
structure FHIRBundle where
  patient : Patient
  immunizations : List Immunization
deriving DecidableEq, Inhabited

/-- `codingJSON` from fhirbundle.go. -/
structure CodingJSON where
  system : String
  code : String
deriving DecidableEq, Inhabited

/-- `vaccineCodeJSON` from fhirbundle.go. -/
structure VaccineCodeJSON where
  coding : List CodingJSON
deriving DecidableEq, Inhabited

/-- `patientJSON` from fhirbundle.go. -/
structure PatientRefJSON where
  reference : String
deriving DecidableEq, Inhabited

/-- `actorJSON` from fhirbundle.go. -/
structure ActorJSON where
  display : String
deriving DecidableEq, Inhabited

/-- `performerJSON` from fhirbundle.go. -/
structure PerformerJSON where
  actor : ActorJSON
deriving DecidableEq, Inhabited

/-- `resourceJSON` from fhirbundle.go: Go nil pointers are `none`, zero-value
strings are `""`, nil slices are `[]`. -/
structure ResourceJSON where
  resourceType : String
  name : List Name
  birthDate : String
  status : String
  vaccineCode : Option VaccineCodeJSON
  patient : Option PatientRefJSON
  occurrenceDateTime : String
  performers : List PerformerJSON
  lotNumber : String
deriving DecidableEq, Inhabited

/-- `entryJSON` from fhirbundle.go. -/
structure EntryJSON where
  fullUrl : String
  resource : ResourceJSON
deriving DecidableEq, Inhabited

/-- `fhirBundleJSON` from fhirbundle.go. -/
structure FhirBundleJSON where
  resourceType : String
  type : String
  entries : List EntryJSON
deriving DecidableEq, Inhabited

/-- The patient entry `Entries[0]` built by `MarshalJSON`. -/
def patientEntry (p : Patient) : EntryJSON :=
  { fullUrl := "resource:0",
    resource := { resourceType := "Patient", name := [p.name],
                  birthDate := formatYMD p.birthDate, status := "",
                  vaccineCode := none, patient := none,
                  occurrenceDateTime := "", performers := [], lotNumber := "" } }

/-- One immunization entry of `MarshalJSON`'s loop; `j` is the 1-based entry
index `i+1` and `code` the CVX code of the vaccine type. -/
def immEntry (j : Nat) (code : String) (imm : Immunization) : EntryJSON :=
  { fullUrl := "resource:" ++ ⟨natDec j⟩,
    resource := { resourceType := "Immunization", name := [], birthDate := "",
                  status := "completed",
                  vaccineCode := some { coding :=
                    [{ system := "https://hl7.org/fhir/sid/cvx", code := code }] },
                  patient := some { reference := "resource:0" },
                  occurrenceDateTime := formatYMD imm.datePerformed,
                  performers := [{ actor := { display := imm.performer } }],
                  lotNumber := imm.lotNumber } }

/-- `MarshalJSON`'s loop over the immunizations, carrying the 1-based entry
index `j`; `none` models the `cvxcode` panic on an unsupported type. -/
def immEntries (j : Nat) : List Immunization → Option (List EntryJSON)
  | [] => some []
  | imm :: rest =>
      match cvxcode imm.vaccineType, immEntries (j + 1) rest with
      | some code, some es => some (immEntry j code imm :: es)
      | _, _ => none

/-- `MarshalJSON` from fhirbundle.go at the JSON-structure level (the byte
rendering of this fixed shape by encoding/json is external). -/
def marshalFHIRBundle (f : FHIRBundle) : Option FhirBundleJSON :=
  (immEntries 1 f.immunizations).map (fun es =>
    { resourceType := "Bundle", type := "collection",
      entries := patientEntry f.patient :: es })

lemma supported_has_code : ∀ vt ∈ supportedVaccineTypes,
    ∃ code, cvxcode vt = some code := by
  have h : ∀ vt ∈ supportedVaccineTypes, (cvxcode vt).isSome := by decide
  intro vt hvt
  exact Option.isSome_iff_exists.mp (h vt hvt)

lemma immEntries_spec (l : List Immunization)
    (h : ∀ imm ∈ l, imm.vaccineType ∈ supportedVaccineTypes) :
    ∀ j, ∃ es, immEntries j l = some es ∧ es.length = l.length ∧
      ∀ i, (hi : i < l.length) → ∃ code,
        cvxcode (l.get ⟨i, hi⟩).vaccineType = some code ∧
        es.getD i default = immEntry (j + i) code (l.get ⟨i, hi⟩) := by
  induction l with
  | nil =>
      intro j
      exact ⟨[], rfl, rfl, fun i hi => absurd hi (by simp)⟩
  | cons a l ih =>
      intro j
      obtain ⟨code, hcode⟩ :=
        supported_has_code a.vaccineType (h a (List.mem_cons_self a l))
      obtain ⟨es, hes, hlen, hidx⟩ :=
        ih (fun imm hm => h imm (List.mem_cons_of_mem a hm)) (j + 1)
      refine ⟨immEntry j code a :: es, ?_, by simp [hlen], ?_⟩
      · simp [immEntries, hcode, hes]
      · intro i hi
        cases i with
        | zero => exact ⟨code, hcode, by simp⟩
        | succ i =>
            obtain ⟨c2, hc2, hgetD⟩ := hidx i (by simpa using hi)
            refine ⟨c2, hc2, ?_⟩
            simpa [show j + (i + 1) = j + 1 + i from by omega] using hgetD

/-- The form fields `parseInput` reads (`r.PostFormValue` of each name). -/
structure FormInput where
  family_name : String
  given_names : String
  date_of_birth : String
  first_immunization_performer : String
  first_immunization_lot_number : String
  first_immunization_vaccine_type : String
  first_immunization_date : String
  second_immunization_performer : String
  second_immunization_lot_number : String
  second_immunization_vaccine_type : String
  second_immunization_date : String
  third_immunization_performer : String
  third_immunization_lot_number : String
  third_immunization_vaccine_type : String
  third_immunization_date : String

/-- Go `strings.Fields`: split on whitespace, dropping empty pieces. -/
def goFields (s : String) : List String :=
  (s.split Char.isWhitespace).filter (fun w => w ≠ "")

/-- The third-immunization block of `parseInput` (webhandlers.go): the code
both arms of the second-immunization branch fall through to, appending a
third immunization to `imms` when its fields are present. -/
def parseThird (pd : String → Option Date) (r : FormInput) (patient : Patient)
    (imms : List Immunization) : Except String FHIRBundle :=
  if r.third_immunization_performer.trim ≠ "" then
    match pd r.third_immunization_date.trim with
    | none => .error "invalid third immunization date"
    | some thirdImmunizationDate =>
      if r.third_immunization_vaccine_type.trim ∈ supportedVaccineTypes then
        .ok { patient := patient,
              immunizations := imms ++
                [{ datePerformed := thirdImmunizationDate,
                   performer := r.third_immunization_performer.trim,
                   lotNumber := r.third_immunization_lot_number.trim,
                   vaccineType := r.third_immunization_vaccine_type.trim }] }
      else .error "invalid third immunization vaccine type"
  else .ok { patient := patient, immunizations := imms }

/-- `parseInput` from webhandlers/webhandlers.go.  `String.trim` models
`strings.TrimSpace` (applied at each use of a field, where the Go code binds
the trimmed value once); `pd` models `time.Parse("2006-01-02", ·)`; the
vaccine type `switch` statements are membership tests against their six
cases. -/
def parseInput (pd : String → Option Date) (r : FormInput) : Except String FHIRBundle :=
  if r.family_name.trim = "" ∨ r.given_names.trim = "" ∨ r.date_of_birth.trim = "" ∨
      r.first_immunization_performer.trim = "" ∨
      r.first_immunization_lot_number.trim = "" ∨
      r.first_immunization_vaccine_type.trim = "" ∨
      r.first_immunization_date.trim = "" then
    .error "patient information or first immunization information missing"
  else if (r.second_immunization_performer.trim ≠ "" ∨
        r.second_immunization_lot_number.trim ≠ "" ∨
        r.second_immunization_vaccine_type.trim ≠ "" ∨
        r.second_immunization_date.trim ≠ "") ∧
      (r.second_immunization_performer.trim = "" ∨
        r.second_immunization_lot_number.trim = "" ∨
        r.second_immunization_vaccine_type.trim = "" ∨
        r.second_immunization_date.trim = "") then
    .error "second immunization information only partially complete"
  else if (r.third_immunization_performer.trim ≠ "" ∨
        r.third_immunization_lot_number.trim ≠ "" ∨
        r.third_immunization_vaccine_type.trim ≠ "" ∨
        r.third_immunization_date.trim ≠ "") ∧
      r.second_immunization_performer.trim = "" then
    .error "third immunization information provided while second immunization is blank"
  else if (r.third_immunization_performer.trim ≠ "" ∨
        r.third_immunization_lot_number.trim ≠ "" ∨
        r.third_immunization_vaccine_type.trim ≠ "" ∨
        r.third_immunization_date.trim ≠ "") ∧
      (r.third_immunization_performer.trim = "" ∨
        r.third_immunization_lot_number.trim = "" ∨
        r.third_immunization_vaccine_type.trim = "" ∨
        r.third_immunization_date.trim = "") then
    .error "third immunization information only partially complete"
  else
    match pd r.date_of_birth.trim with
    | none => .error "invalid patient birth date"
    | some birthDate =>
      match pd r.first_immunization_date.trim with
      | none => .error "invalid first immunization date"
      | some firstImmunizationDate =>
        if r.first_immunization_vaccine_type.trim ∈ supportedVaccineTypes then
          if r.second_immunization_performer.trim ≠ "" then
            match pd r.second_immunization_date.trim with
            | none => .error "invalid second immunization date"
            | some secondImmunizationDate =>
              if r.second_immunization_vaccine_type.trim ∈ supportedVaccineTypes then
                parseThird pd r
                  { name := { family := r.family_name.trim,
                              givens := goFields r.given_names.trim },
                    birthDate := birthDate }
                  ([{ datePerformed := firstImmunizationDate,
                      performer := r.first_immunization_performer.trim,
                      lotNumber := r.first_immunization_lot_number.trim,
                      vaccineType := r.first_immunization_vaccine_type.trim }] ++
                   [{ datePerformed := secondImmunizationDate,
                      performer := r.second_immunization_performer.trim,
                      lotNumber := r.second_immunization_lot_number.trim,
                      vaccineType := r.second_immunization_vaccine_type.trim }])
              else .error "invalid second immunization vaccine type"
          else
            parseThird pd r
              { name := { family := r.family_name.trim,
                          givens := goFields r.given_names.trim },
                birthDate := birthDate }
              [{ datePerformed := firstImmunizationDate,
                 performer := r.first_immunization_performer.trim,
                 lotNumber := r.first_immunization_lot_number.trim,
                 vaccineType := r.first_immunization_vaccine_type.trim }]
        else .error "invalid first immunization vaccine type"

/-- `jwsPayload`, `verifiableCredentials` and `credentialSubject` from
fhirbundle.go. -/
structure CredentialSubject where
  version : String
  bundle : FHIRBundle

structure VerifiableCredentials where
  type : List String
  credentialSubject : CredentialSubject

structure JWSPayload where
  issuer : String
  notBefore : Int
  verifiableCredentials : VerifiableCredentials

/-- `NewJWSPayload` from fhirbundle.go; the `time.Now().Unix()` side effect
is the parameter `now`. -/
def NewJWSPayload (now : Int) (fb : FHIRBundle) (issuer : String) : JWSPayload :=
  { issuer := issuer, notBefore := now,
    verifiableCredentials :=
      { type := ["https://smarthealth.cards#health-card",
                 "https://smarthealth.cards#immunization",
                 "https://smarthealth.cards#covid19"],
        credentialSubject := { version := "4.0.1", bundle := fb } } }

/-- C8.  For every bundle and issuer, `NewJWSPayload` carries the issuer in
`iss`, the call-time Unix timestamp in `nbf` (the current time is the
parameter `now`, drawn fresh at each call), exactly the three fixed type
tags in order, the `fhirVersion` constant `4.0.1`, and the bundle unchanged
as the credential subject. -/
theorem newJWSPayload_contents (now : Int) (fb : FHIRBundle) (issuer : String) :
    (NewJWSPayload now fb issuer).issuer = issuer ∧
    (NewJWSPayload now fb issuer).notBefore = now ∧
    (NewJWSPayload now fb issuer).verifiableCredentials.type
      = ["https://smarthealth.cards#health-card",
         "https://smarthealth.cards#immunization",
         "https://smarthealth.cards#covid19"] ∧
    (NewJWSPayload now fb issuer).verifiableCredentials.credentialSubject.version
      = "4.0.1" ∧
    (NewJWSPayload now fb issuer).verifiableCredentials.credentialSubject.bundle
      = fb :=
  ⟨rfl, rfl, rfl, rfl, rfl⟩

lemma parseThird_ok_valid (pd : String → Option Date) (r : FormInput)
    (patient : Patient) (imms : List Immunization) (fb : FHIRBundle)
    (h : parseThird pd r patient imms = Except.ok fb)
    (himms : ∀ imm ∈ imms, imm.vaccineType ∈ supportedVaccineTypes) :
    ∀ imm ∈ fb.immunizations, imm.vaccineType ∈ supportedVaccineTypes := by
  unfold parseThird at h
  split at h
  · split at h
    · exact Except.noConfusion h
    · split at h
      · rw [Except.ok.injEq] at h
        subst h
        intro imm himm
        rcases List.mem_append.mp himm with hm | hm
        · exact himms imm hm
        · rw [List.mem_singleton] at hm
          subst hm
          assumption
      · exact Except.noConfusion h
  · rw [Except.ok.injEq] at h
    subst h
    exact himms

/-- Every bundle `parseInput` accepts carries only supported vaccine types. -/
lemma parseInput_ok_valid (pd : String → Option Date) (r : FormInput) (fb : FHIRBundle)
    (h : parseInput pd r = Except.ok fb) :
    ∀ imm ∈ fb.immunizations, imm.vaccineType ∈ supportedVaccineTypes := by
  unfold parseInput at h
  repeat'
    first
    | exact Except.noConfusion h
    | split at h
  all_goals
    first
    | exact Except.noConfusion h
    | · refine parseThird_ok_valid pd r _ _ fb h ?_
        intro imm himm
        simp only [List.mem_append, List.mem_cons, List.not_mem_nil,
          or_false] at himm
        first
        | (rcases himm with rfl | rfl <;> assumption)
        | (subst himm; assumption)

/-- C6.  `cvxcode` is total on the six supported vaccine types (208 for
Pfizer, and so on), panics (`none`) on every other string value rather than
defaulting, and every bundle accepted by the upstream validator
(`parseInput`) carries only supported types, so the panic branch is
unreachable when marshaling a validated bundle. -/
theorem cvxcode_contract :
    (cvxcode Pfizer = some "208" ∧ cvxcode Moderna = some "207" ∧
      cvxcode JohnsonAndJohnson = some "212" ∧ cvxcode AstraZeneca = some "210" ∧
      cvxcode Sinopharm = some "510" ∧ cvxcode COVAXIN = some "502") ∧
    (∀ vt : VaccineType, vt ∉ supportedVaccineTypes → cvxcode vt = none) ∧
    (∀ (pd : String → Option Date) (r : FormInput) (fb : FHIRBundle),
      parseInput pd r = Except.ok fb →
      (∀ imm ∈ fb.immunizations, imm.vaccineType ∈ supportedVaccineTypes ∧
        (cvxcode imm.vaccineType).isSome) ∧
      (marshalFHIRBundle fb).isSome) := by
  refine ⟨by decide, ?_, ?_⟩
  · intro vt hvt
    simp only [supportedVaccineTypes, List.mem_cons, List.not_mem_nil, or_false,
      not_or] at hvt
    obtain ⟨n1, n2, n3, n4, n5, n6⟩ := hvt
    simp [cvxcode, n1, n2, n3, n4, n5, n6]
  · intro pd r fb h
    have hval := parseInput_ok_valid pd r fb h
    have hsome : ∀ vt ∈ supportedVaccineTypes, (cvxcode vt).isSome := by decide
    refine ⟨fun imm hm => ⟨hval imm hm, hsome _ (hval imm hm)⟩, ?_⟩
    obtain ⟨es, hes, -, -⟩ := immEntries_spec fb.immunizations hval 1
    simp [marshalFHIRBundle, hes]

/-- C7.  Marshaling a validated bundle with `N` immunizations yields the
`collection` Bundle with `N + 1` entries: entry 0 is the `resource:0`
Patient carrying the name and `YYYY-MM-DD` birth date; entry `i` is the
`resource:i` Immunization, in event order, with status `completed`, the CVX
coding, the back-reference to `resource:0`, the `YYYY-MM-DD` occurrence
date, the performer display and the lot number. -/
theorem marshal_bundle_shape (f : FHIRBundle)
    (h1 : 1 ≤ f.immunizations.length) (h3 : f.immunizations.length ≤ 3)
    (hval : ∀ imm ∈ f.immunizations, imm.vaccineType ∈ supportedVaccineTypes) :
    ∃ bj, marshalFHIRBundle f = some bj ∧
      bj.resourceType = "Bundle" ∧ bj.type = "collection" ∧
      bj.entries.length = f.immunizations.length + 1 ∧
      bj.entries.getD 0 default
        = { fullUrl := "resource:0",
            resource := { resourceType := "Patient", name := [f.patient.name],
                          birthDate := formatYMD f.patient.birthDate, status := "",
                          vaccineCode := none, patient := none,
                          occurrenceDateTime := "", performers := [],
                          lotNumber := "" } } ∧
      ∀ i, (hi : i < f.immunizations.length) → ∃ code,
        cvxcode (f.immunizations.get ⟨i, hi⟩).vaccineType = some code ∧
        bj.entries.getD (i + 1) default
          = { fullUrl := "resource:" ++ ⟨natDec (i + 1)⟩,
              resource := { resourceType := "Immunization", name := [],
                            birthDate := "", status := "completed",
                            vaccineCode := some { coding :=
                              [{ system := "https://hl7.org/fhir/sid/cvx",
                                 code := code }] },
                            patient := some { reference := "resource:0" },
                            occurrenceDateTime :=
                              formatYMD (f.immunizations.get ⟨i, hi⟩).datePerformed,
                            performers := [{ actor := { display :=
                              (f.immunizations.get ⟨i, hi⟩).performer } }],
                            lotNumber :=
                              (f.immunizations.get ⟨i, hi⟩).lotNumber } } := by
  obtain ⟨es, hes, hlen, hidx⟩ := immEntries_spec f.immunizations hval 1
  refine ⟨{ resourceType := "Bundle", type := "collection",
            entries := patientEntry f.patient :: es }, ?_, rfl, rfl, ?_, rfl, ?_⟩
  · simp [marshalFHIRBundle, hes]
  · simp [hlen]
  · intro i hi
    obtain ⟨code, hcode, hgetD⟩ := hidx i hi
    refine ⟨code, hcode, ?_⟩
    show (patientEntry f.patient :: es).getD (i + 1) default = _
    rw [List.getD_cons_succ, hgetD, show 1 + i = i + 1 from by omega]
    rfl

/-- The README's example input. -/
def demoBundle : FHIRBundle :=
  { patient := { name := { family := "Salk", givens := ["Jonas"] },
                 birthDate := { year := 1914, month := 10, day := 28 } },
    immunizations :=
      [{ datePerformed := { year := 2021, month := 6, day := 1 },
         performer := "MyLocalHospital", lotNumber := "LN01234",
         vaccineType := Pfizer }] }

theorem marshal_bundle_shape_witness :
    (1 ≤ demoBundle.immunizations.length ∧ demoBundle.immunizations.length ≤ 3 ∧
      ∀ imm ∈ demoBundle.immunizations, imm.vaccineType ∈ supportedVaccineTypes) ∧
    (∃ bj, marshalFHIRBundle demoBundle = some bj ∧
      bj.resourceType = "Bundle" ∧ bj.type = "collection" ∧
      bj.entries.length = demoBundle.immunizations.length + 1 ∧
      bj.entries.getD 0 default
        = { fullUrl := "resource:0",
            resource := { resourceType := "Patient",
                          name := [demoBundle.patient.name],
                          birthDate := formatYMD demoBundle.patient.birthDate,
                          status := "", vaccineCode := none, patient := none,
                          occurrenceDateTime := "", performers := [],
                          lotNumber := "" } } ∧
      ∀ i, (hi : i < demoBundle.immunizations.length) → ∃ code,
        cvxcode (demoBundle.immunizations.get ⟨i, hi⟩).vaccineType = some code ∧
        bj.entries.getD (i + 1) default
          = { fullUrl := "resource:" ++ ⟨natDec (i + 1)⟩,
              resource := { resourceType := "Immunization", name := [],
                            birthDate := "", status := "completed",
                            vaccineCode := some { coding :=
                              [{ system := "https://hl7.org/fhir/sid/cvx",
                                 code := code }] },
                            patient := some { reference := "resource:0" },
                            occurrenceDateTime :=
                              formatYMD (demoBundle.immunizations.get
                                ⟨i, hi⟩).datePerformed,
                            performers := [{ actor := { display :=
                              (demoBundle.immunizations.get ⟨i, hi⟩).performer } }],
                            lotNumber :=
                              (demoBundle.immunizations.get ⟨i, hi⟩).lotNumber } }) :=
  ⟨⟨by decide, by decide, by decide⟩,
   marshal_bundle_shape demoBundle (by decide) (by decide) (by decide)⟩

end SmartHealthCards
